import Mathlib

/-!
Verification of the Deribit P&L dashboard pipeline (src/app.py).

The pipeline embedded here is the data-processing core of `app.py`:
load → clean column names → parse dates and sort → filter transfer-like
rows → derive the latest index price → compute gross/fee/net P&L →
group by day and by month → assemble the report figures.

Modelling conventions:
* pandas floats are modelled by `ℚ` (the claims are about structure and
  exact arithmetic identities, not float rounding);
* a pandas `NaN`/`NA` cell is modelled by `none : Option ℚ` where it can
  arise (the forward-filled price and the fiat columns derived from it);
* a DataFrame is modelled by the list of its rows plus booleans recording
  which optional columns are present; the set of columns of the two
  output tables is recorded explicitly, mirroring the column assignments
  in the source;
* `pd.to_datetime` values are modelled by the `DT` structure ordered
  lexicographically (year, month, day, time-of-day);
* `df.sort_values(by='datetime')` is modelled by `List.insertionSort`
  on that order (the source's quicksort agrees with it on every input
  whose timestamps are distinct; tie order in the source is
  numpy-implementation-defined);
* a raised Python exception that reaches the top-level handler is
  modelled by `Except.error` with the exception's message.
-/

/-- A parsed timestamp: year, month, day and an abstract time-of-day,
ordered lexicographically (as `pd.to_datetime` values are). -/
structure DT where
  y : Nat
  mo : Nat
  d : Nat
  t : Nat
deriving DecidableEq

/-- Boolean lexicographic order on timestamps. -/
def DT.leb (a b : DT) : Bool :=
  decide (a.y < b.y) ||
    (decide (a.y = b.y) && (decide (a.mo < b.mo) ||
      (decide (a.mo = b.mo) && (decide (a.d < b.d) ||
        (decide (a.d = b.d) && decide (a.t ≤ b.t))))))

/-- One raw row of the uploaded CSV, after date parsing.
`typ` is the cell of the `Type` column (`none` models a NaN cell, which
`.str.lower().isin(...)` maps to `False`, i.e. the row is kept);
`cashFlow` is the cell of the gross-amount column; `feeCharged` the fee;
`indexPrice` the cell of the `Index Price` column. -/
structure Row where
  date : DT
  typ : Option String
  cashFlow : ℚ
  feeCharged : ℚ
  indexPrice : ℚ
deriving DecidableEq

/-- The uploaded CSV: its rows plus which optional columns are present.
`hasCashFlow`/`hasChange` record whether the gross-amount column is
labelled `Cash Flow` or `Change`; when both are false (or only `Change`
is present) the lookup `df['Cash Flow']` in the source raises `KeyError`. -/
structure Csv where
  rows : List Row
  hasType : Bool
  hasIndexPrice : Bool
  hasCashFlow : Bool
  hasChange : Bool
  hasFeeCharged : Bool
deriving DecidableEq

/-- Ordering of rows by parsed timestamp, as used by
`df.sort_values(by='datetime')`. -/
def rowLe (a b : Row) : Prop := DT.leb a.date b.date = true

instance : DecidableRel rowLe := fun a b => instDecidableEqBool (DT.leb a.date b.date) true

theorem DT.leb_total (a b : DT) : DT.leb a b = true ∨ DT.leb b a = true := by
  simp only [DT.leb, Bool.or_eq_true, Bool.and_eq_true, decide_eq_true_eq]
  omega

theorem DT.leb_trans (a b c : DT) (hab : DT.leb a b = true) (hbc : DT.leb b c = true) :
    DT.leb a c = true := by
  simp only [DT.leb, Bool.or_eq_true, Bool.and_eq_true, decide_eq_true_eq] at *
  omega

instance : IsTotal Row rowLe := ⟨fun a b => DT.leb_total a.date b.date⟩

instance : IsTrans Row rowLe :=
  ⟨fun a b c hab hbc => DT.leb_trans a.date b.date c.date hab hbc⟩

/-- ASCII lower-casing of one character (model of `str.lower()` on the
characters occurring in Deribit type labels). -/
def lowerChar (ch : Char) : Char :=
  if 65 ≤ ch.toNat ∧ ch.toNat ≤ 90 then Char.ofNat (ch.toNat + 32) else ch

/-- Lower-casing of a type label, modelling `.str.lower()`. -/
def lowerStr (s : String) : String := ⟨s.data.map lowerChar⟩

/-- The exclusion set of line 30: `['transfer', 'deposit', 'withdrawal']`. -/
def excludedList : List String := ["transfer", "deposit", "withdrawal"]

/-- One cell's verdict of `df['Type'].str.lower().isin([...])`:
a NaN cell (`none`) yields `False`, so the row is kept by `~isin`. -/
def isExcludedType (t : Option String) : Bool :=
  match t with
  | none => false
  | some s => decide (lowerStr s ∈ excludedList)

/-- Lines 29-30: when the `Type` column exists, drop the rows whose
lower-cased type is in the exclusion set; otherwise pass through. -/
def typeFilter (hasType : Bool) (rows : List Row) : List Row :=
  if hasType then rows.filter (fun r => !(isExcludedType r.typ)) else rows

/-- Line 35, first step: `.replace(0, pd.NA)` on the `Index Price` column. -/
def replaceZeroNA (xs : List ℚ) : List (Option ℚ) :=
  xs.map (fun x => if x = 0 then none else some x)

/-- Forward fill with an explicit carried value (`.ffill()`). -/
def ffillAux (carry : Option ℚ) : List (Option ℚ) → List (Option ℚ)
  | [] => []
  | none :: xs => carry :: ffillAux carry xs
  | some x :: xs => some x :: ffillAux (some x) xs

/-- Line 35, second step: `.ffill()` (nothing observed yet at the start). -/
def ffill (xs : List (Option ℚ)) : List (Option ℚ) := ffillAux none xs

/-- Line 35, last step: `.iloc[-1]`, which raises `IndexError` on an
empty series. -/
def ilocLast (xs : List (Option ℚ)) : Except String (Option ℚ) :=
  match xs.getLast? with
  | some v => Except.ok v
  | none => Except.error "IndexError: single positional indexer is out-of-bounds"

/-- Lines 33-38: the latest-price step. When the `Index Price` column is
present the chain of line 35 runs (its value is `none` when the filled
series still ends in `NA`); otherwise `last_price = 0`. -/
def priceStep (hasIP : Bool) (rows : List Row) : Except String (Option ℚ) :=
  if hasIP then ilocLast (ffill (replaceZeroNA (rows.map (fun r => r.indexPrice))))
  else Except.ok (some 0)

/-- Line 41: `Gross P&L = Cash Flow`. -/
def grossOf (r : Row) : ℚ := r.cashFlow

/-- Line 42: `Fees = Fee Charged`. -/
def feesOf (r : Row) : ℚ := r.feeCharged

/-- Line 43: `Net P&L = Gross P&L - Fees`. -/
def netOf (r : Row) : ℚ := r.cashFlow - r.feeCharged

/-- Line 25: the `Day` column, the date portion of the timestamp. -/
def rowDay (r : Row) : Nat × Nat × Nat := (r.date.y, r.date.mo, r.date.d)

/-- Boolean lexicographic order on day keys. -/
def keyLeb (a b : Nat × Nat × Nat) : Bool :=
  decide (a.1 < b.1) ||
    (decide (a.1 = b.1) && (decide (a.2.1 < b.2.1) ||
      (decide (a.2.1 = b.2.1) && decide (a.2.2 ≤ b.2.2))))

/-- Propositional order on day keys (groupby sorts its keys ascending). -/
def keyLe (a b : Nat × Nat × Nat) : Prop := keyLeb a b = true

instance : DecidableRel keyLe := fun a b => instDecidableEqBool (keyLeb a b) true

theorem keyLeb_total (a b : Nat × Nat × Nat) : keyLeb a b = true ∨ keyLeb b a = true := by
  simp only [keyLeb, Bool.or_eq_true, Bool.and_eq_true, decide_eq_true_eq]
  omega

theorem keyLeb_trans (a b c : Nat × Nat × Nat) (hab : keyLeb a b = true)
    (hbc : keyLeb b c = true) : keyLeb a c = true := by
  simp only [keyLeb, Bool.or_eq_true, Bool.and_eq_true, decide_eq_true_eq] at *
  omega

instance : IsTotal (Nat × Nat × Nat) keyLe := ⟨keyLeb_total⟩

instance : IsTrans (Nat × Nat × Nat) keyLe := ⟨keyLeb_trans⟩

/-- The distinct day keys of `groupby('Day')`, sorted ascending as pandas
groupby reports its groups. -/
def dayKeys (rows : List Row) : List (Nat × Nat × Nat) :=
  List.insertionSort keyLe ((rows.map rowDay).dedup)

/-- The three summed columns of one aggregation bucket. -/
structure Sums where
  gross : ℚ
  fees : ℚ
  net : ℚ
deriving DecidableEq

/-- Column sums over the rows selected by `p` (`.sum()` of one group). -/
def sumsFor (rows : List Row) (p : Row → Bool) : Sums :=
  { gross := ((rows.filter p).map grossOf).sum
    fees := ((rows.filter p).map feesOf).sum
    net := ((rows.filter p).map netOf).sum }

/-- Line 46: `df.groupby('Day')[['Gross P&L','Fees','Net P&L']].sum()`. -/
def dailySums (rows : List Row) : List ((Nat × Nat × Nat) × Sums) :=
  (dayKeys rows).map (fun k => (k, sumsFor rows (fun r => decide (rowDay r = k))))

/-- One row of the daily ledger after lines 49-55: summed columns,
running cumulative columns, and USD columns (`none` models the NaN
obtained when `last_price` is NaN). -/
structure DailyEntry where
  gross : ℚ
  fees : ℚ
  net : ℚ
  cumNet : ℚ
  cumGross : ℚ
  netUsd : Option ℚ
  feesUsd : Option ℚ
  grossUsd : Option ℚ
deriving DecidableEq

/-- Multiplication of a settlement-asset amount by `last_price`
(`x * last_price`; NaN propagates). -/
def usdOf (lp : Option ℚ) (x : ℚ) : Option ℚ := lp.map (fun p => x * p)

/-- Lines 49-55 over already-summed day buckets: attach the running
cumulative columns (`cumsum`) and the USD columns. -/
def attachCum (lp : Option ℚ) (accN accG : ℚ) :
    List ((Nat × Nat × Nat) × Sums) → List ((Nat × Nat × Nat) × DailyEntry)
  | [] => []
  | (k, s) :: rest =>
      (k, { gross := s.gross, fees := s.fees, net := s.net,
            cumNet := accN + s.net, cumGross := accG + s.gross,
            netUsd := usdOf lp s.net, feesUsd := usdOf lp s.fees,
            grossUsd := usdOf lp s.gross }) ::
        attachCum lp (accN + s.net) (accG + s.gross) rest

/-- Lines 46-55: the full daily ledger. -/
def dailyLedger (lp : Option ℚ) (rows : List Row) :
    List ((Nat × Nat × Nat) × DailyEntry) :=
  attachCum lp 0 0 (dailySums rows)

/-- The month period of a row, linearised (`year * 12 + (month - 1)`),
modelling the `'M'` resampling period of the datetime index. -/
def monthCode (r : Row) : Nat := r.date.y * 12 + (r.date.mo - 1)

/-- The smallest month period among the rows (start of the resample range). -/
def minMonth : List Row → Nat
  | [] => 0
  | [r] => monthCode r
  | r :: rest => Nat.min (monthCode r) (minMonth rest)

/-- The largest month period among the rows (end of the resample range). -/
def maxMonth : List Row → Nat
  | [] => 0
  | [r] => monthCode r
  | r :: rest => Nat.max (monthCode r) (maxMonth rest)

/-- One row of the monthly table after lines 58-63: summed columns and
USD columns.  The table has no cumulative columns. -/
structure MonthlyEntry where
  gross : ℚ
  fees : ℚ
  net : ℚ
  netUsd : Option ℚ
  feesUsd : Option ℚ
  grossUsd : Option ℚ
deriving DecidableEq

/-- Lines 58-63: `resample('M')....sum()` produces one bucket per month
period from the earliest to the latest month of the index (empty months
sum to zero), then the USD columns are attached. -/
def monthlyStats (lp : Option ℚ) (rows : List Row) : List (Nat × MonthlyEntry) :=
  match rows with
  | [] => []
  | _ :: _ =>
    (List.range (maxMonth rows + 1 - minMonth rows)).map (fun i =>
      let m := minMonth rows + i
      let s := sumsFor rows (fun r => decide (monthCode r = m))
      (m, { gross := s.gross, fees := s.fees, net := s.net,
            netUsd := usdOf lp s.net, feesUsd := usdOf lp s.fees,
            grossUsd := usdOf lp s.gross }))

/-- The columns of the daily ledger, in assignment order (lines 46-55). -/
def dailyColumnNames : List String :=
  ["Gross P&L", "Fees", "Net P&L", "Cumulative Net", "Cumulative Gross",
   "Net ($)", "Fees ($)", "Gross ($)"]

/-- The columns of the monthly table, in assignment order (lines 58-63). -/
def monthlyColumnNames : List String :=
  ["Gross P&L", "Fees", "Net P&L", "Net ($)", "Fees ($)", "Gross ($)"]

/-- The warning message of line 38 (abridged). -/
def ipWarning : String := "Index Price column not found. USD values will be 0."

/-- The report handed to the presentation layer: the price reference,
the warnings emitted so far, the two tables with their column sets, and
the summary totals of lines 71-77. -/
structure Report where
  lastPrice : Option ℚ
  warnings : List String
  daily : List ((Nat × Nat × Nat) × DailyEntry)
  monthly : List (Nat × MonthlyEntry)
  dailyColumns : List String
  monthlyColumns : List String
  totalNet : ℚ
  totalGross : ℚ
  totalFees : ℚ
  totalNetUsd : Option ℚ
  totalGrossUsd : Option ℚ
  totalFeesUsd : Option ℚ
deriving DecidableEq

/-- Lines 46-77: assemble the two tables and the summary totals from the
filtered, sorted rows and the price reference. -/
def assemble (hasIP : Bool) (lp : Option ℚ) (rows : List Row) : Report :=
  let ds := dailySums rows
  { lastPrice := lp
    warnings := if hasIP then [] else [ipWarning]
    daily := attachCum lp 0 0 ds
    monthly := monthlyStats lp rows
    dailyColumns := dailyColumnNames
    monthlyColumns := monthlyColumnNames
    totalNet := (ds.map (fun e => e.2.net)).sum
    totalGross := (ds.map (fun e => e.2.gross)).sum
    totalFees := (ds.map (fun e => e.2.fees)).sum
    totalNetUsd := usdOf lp ((ds.map (fun e => e.2.net)).sum)
    totalGrossUsd := usdOf lp ((ds.map (fun e => e.2.gross)).sum)
    totalFeesUsd := usdOf lp ((ds.map (fun e => e.2.fees)).sum) }

/-- Lines 26-30: the rows after sorting by timestamp and filtering. -/
def processedRows (c : Csv) : List Row :=
  typeFilter c.hasType (List.insertionSort rowLe c.rows)

/-- The whole pipeline of the `try` block (lines 15-127): any exception
is caught by the handler of line 129 and shown as an error, modelled by
`Except.error`.  The price step (line 35) runs before the P&L columns of
lines 41-42 are read, so its `IndexError` precedes their `KeyError`s. -/
def pipeline (c : Csv) : Except String Report :=
  match priceStep c.hasIndexPrice (processedRows c) with
  | Except.error e => Except.error e
  | Except.ok lp =>
    if c.hasCashFlow then
      if c.hasFeeCharged then Except.ok (assemble c.hasIndexPrice lp (processedRows c))
      else Except.error "KeyError: Fee Charged"
    else Except.error "KeyError: Cash Flow"

/-! ### Specification-side definitions

These definitions follow the wording of the specification (not the
source); the claim theorems compare the pipeline against them. -/

/-- Specification wording: the last non-zero `Index Price` in
chronological order among the given price sequence. -/
def specLastNonZero (xs : List ℚ) : Option ℚ :=
  (xs.filter (fun x => x != 0)).getLast?

/-- Specification wording: a record type that, compared
case-insensitively, is one of transfer, deposit, withdrawal. -/
def specExcludedType (t : Option String) : Prop :=
  ∃ s, t = some s ∧
    (lowerStr s = "transfer" ∨ lowerStr s = "deposit" ∨ lowerStr s = "withdrawal")

/-- Specification wording: running sums over buckets in ascending bucket
order — entry `i` is the sum of the first `i + 1` bucket values. -/
def runningSums (xs : List ℚ) : List ℚ :=
  (List.range xs.length).map (fun i => (xs.take (i + 1)).sum)

/-- Modelled from the spec: the Report Assembler's `win_rate` of §4.6 is
absent from src/app.py (only part of the repository's source is
available); per the spec it is the number of positive-`net_pnl` daily
buckets over the total number of daily buckets, as a percentage, and 0
when there are no buckets. -/
def win_rate (daily : List ((Nat × Nat × Nat) × DailyEntry)) : ℚ :=
  if daily.length = 0 then 0
  else ((daily.filter (fun e => decide (0 < e.2.net))).length : ℚ) * 100 / (daily.length : ℚ)


/-! ### Helper lemmas about the forward-filled price -/

/-- Left-biased choice on optional values: the first observed value wins
over the carried one. -/
def orO (a b : Option ℚ) : Option ℚ :=
  match a with
  | some v => some v
  | none => b

theorem ffillAux_cons (carry : Option ℚ) (o : Option ℚ) (t : List (Option ℚ)) :
    ffillAux carry (o :: t) = orO o carry :: ffillAux (orO o carry) t := by
  cases o <;> rfl

theorem ffillAux_ne_nil (carry : Option ℚ) (os : List (Option ℚ)) (h : os ≠ []) :
    ffillAux carry os ≠ [] := by
  cases os with
  | nil => exact absurd rfl h
  | cons o t => rw [ffillAux_cons]; exact List.cons_ne_nil _ _

theorem ffillAux_getLast (carry : Option ℚ) (os : List (Option ℚ)) (h : os ≠ []) :
    (ffillAux carry os).getLast? = some (os.foldl (fun acc o => orO o acc) carry) := by
  induction os generalizing carry with
  | nil => exact absurd rfl h
  | cons o t ih =>
    cases t with
    | nil => cases o <;> rfl
    | cons o2 t2 =>
      rw [ffillAux_cons, ffillAux_cons, List.getLast?_cons_cons, ← ffillAux_cons]
      rw [ih (orO o carry) (List.cons_ne_nil _ _)]
      rfl

theorem foldl_orO_replace (xs : List ℚ) (carry : Option ℚ) :
    (replaceZeroNA xs).foldl (fun acc o => orO o acc) carry =
      orO ((xs.filter (fun x => x != 0)).getLast?) carry := by
  induction xs generalizing carry with
  | nil => rfl
  | cons x t ih =>
    simp only [replaceZeroNA, List.map_cons, List.foldl_cons, List.filter_cons]
    by_cases hx : x = 0
    · have hxb : (x != 0) = false := by simp [hx]
      rw [if_pos hx, hxb, if_neg (by simp)]
      have hih := ih carry
      simp only [replaceZeroNA] at hih
      simpa [orO] using hih
    · have hxb : (x != 0) = true := by simp [hx]
      rw [if_neg hx, hxb, if_pos rfl]
      have hstep : orO (some x) carry = some x := rfl
      rw [hstep]
      have hih := ih (some x)
      simp only [replaceZeroNA] at hih
      rw [hih]
      cases hft : t.filter (fun x => x != 0) with
      | nil => simp [orO]
      | cons a l =>
        rw [List.getLast?_cons_cons]
        cases hlast : (a :: l).getLast? with
        | none => exact absurd (List.getLast?_eq_none_iff.mp hlast) (List.cons_ne_nil a l)
        | some v => rfl

theorem ilocLast_ffill (xs : List ℚ) (h : xs ≠ []) :
    ilocLast (ffill (replaceZeroNA xs)) = Except.ok (specLastNonZero xs) := by
  have hne : replaceZeroNA xs ≠ [] := by
    cases xs with
    | nil => exact absurd rfl h
    | cons a t => exact List.cons_ne_nil _ _
  have h1 : (ffill (replaceZeroNA xs)).getLast? = some (specLastNonZero xs) := by
    rw [ffill, ffillAux_getLast _ _ hne, foldl_orO_replace]
    simp only [specLastNonZero]
    cases hfl : (xs.filter (fun x => x != 0)).getLast? <;> rfl
  unfold ilocLast
  rw [h1]

theorem priceStep_true_ok (rows : List Row) (h : rows ≠ []) :
    priceStep true rows =
      Except.ok (specLastNonZero (rows.map (fun r => r.indexPrice))) := by
  have hmap : rows.map (fun r => r.indexPrice) ≠ [] := by
    cases rows with
    | nil => exact absurd rfl h
    | cons a t => simp
  show ilocLast (ffill (replaceZeroNA (rows.map (fun r => r.indexPrice)))) = _
  exact ilocLast_ffill _ hmap

theorem pipeline_ok_cases (c : Csv) (r : Report) (h : pipeline c = Except.ok r) :
    c.hasCashFlow = true ∧ c.hasFeeCharged = true ∧
      ((c.hasIndexPrice = false ∧ r = assemble false (some 0) (processedRows c)) ∨
       (c.hasIndexPrice = true ∧ processedRows c ≠ [] ∧
         r = assemble true
               (specLastNonZero ((processedRows c).map (fun row => row.indexPrice)))
               (processedRows c))) := by
  unfold pipeline at h
  cases hip : c.hasIndexPrice with
  | false =>
    rw [hip] at h
    rw [show priceStep false (processedRows c) = Except.ok (some 0) from rfl] at h
    cases hcf : c.hasCashFlow with
    | false => rw [hcf] at h; simp at h
    | true =>
      rw [hcf] at h
      cases hfc : c.hasFeeCharged with
      | false => rw [hfc] at h; simp at h
      | true =>
        rw [hfc] at h
        simp at h
        exact ⟨rfl, rfl, Or.inl ⟨rfl, h.symm⟩⟩
  | true =>
    rw [hip] at h
    by_cases hrows : processedRows c = []
    · rw [hrows] at h
      rw [show priceStep true ([] : List Row) =
            Except.error "IndexError: single positional indexer is out-of-bounds" from rfl] at h
      simp at h
    · rw [priceStep_true_ok _ hrows] at h
      cases hcf : c.hasCashFlow with
      | false => rw [hcf] at h; simp at h
      | true =>
        rw [hcf] at h
        cases hfc : c.hasFeeCharged with
        | false => rw [hfc] at h; simp at h
        | true =>
          rw [hfc] at h
          simp at h
          exact ⟨rfl, rfl, Or.inr ⟨rfl, hrows, h.symm⟩⟩

/-! ### Helper lemmas about the aggregation step -/

theorem runningSums_cons (x : ℚ) (xs : List ℚ) :
    runningSums (x :: xs) = x :: (runningSums xs).map (fun t => x + t) := by
  simp only [runningSums, List.length_cons, List.range_succ_eq_map, List.map_cons,
    List.map_map]
  simp only [List.cons.injEq]
  refine ⟨by simp, ?_⟩
  apply List.map_congr_left
  intro i _
  simp only [Function.comp_apply, List.take_succ_cons, List.sum_cons]

theorem runningSums_getLast (xs : List ℚ) (h : xs ≠ []) :
    (runningSums xs).getLast? = some xs.sum := by
  induction xs with
  | nil => exact absurd rfl h
  | cons x t ih =>
    rw [runningSums_cons]
    by_cases ht : t = []
    · subst ht
      simp [runningSums]
    · rw [List.getLast?_cons, List.getLast?_map, ih ht]
      simp

theorem attachCum_map_fst (lp : Option ℚ) (aN aG : ℚ)
    (l : List ((Nat × Nat × Nat) × Sums)) :
    (attachCum lp aN aG l).map Prod.fst = l.map Prod.fst := by
  induction l generalizing aN aG with
  | nil => rfl
  | cons e rest ih =>
    obtain ⟨k, s⟩ := e
    simp only [attachCum, List.map_cons]
    rw [ih]

theorem attachCum_map_net (lp : Option ℚ) (aN aG : ℚ)
    (l : List ((Nat × Nat × Nat) × Sums)) :
    (attachCum lp aN aG l).map (fun e => e.2.net) = l.map (fun e => e.2.net) := by
  induction l generalizing aN aG with
  | nil => rfl
  | cons e rest ih =>
    obtain ⟨k, s⟩ := e
    simp only [attachCum, List.map_cons]
    rw [ih]

theorem attachCum_map_gross (lp : Option ℚ) (aN aG : ℚ)
    (l : List ((Nat × Nat × Nat) × Sums)) :
    (attachCum lp aN aG l).map (fun e => e.2.gross) = l.map (fun e => e.2.gross) := by
  induction l generalizing aN aG with
  | nil => rfl
  | cons e rest ih =>
    obtain ⟨k, s⟩ := e
    simp only [attachCum, List.map_cons]
    rw [ih]

theorem attachCum_map_cumNet (lp : Option ℚ) (aN aG : ℚ)
    (l : List ((Nat × Nat × Nat) × Sums)) :
    (attachCum lp aN aG l).map (fun e => e.2.cumNet) =
      (runningSums (l.map (fun e => e.2.net))).map (fun t => aN + t) := by
  induction l generalizing aN aG with
  | nil => rfl
  | cons e rest ih =>
    obtain ⟨k, s⟩ := e
    simp only [attachCum, List.map_cons, runningSums_cons, List.map_map, List.cons.injEq]
    refine ⟨trivial, ?_⟩
    rw [ih]
    apply List.map_congr_left
    intro t _
    simp only [Function.comp_apply]
    ring

theorem attachCum_map_cumGross (lp : Option ℚ) (aN aG : ℚ)
    (l : List ((Nat × Nat × Nat) × Sums)) :
    (attachCum lp aN aG l).map (fun e => e.2.cumGross) =
      (runningSums (l.map (fun e => e.2.gross))).map (fun t => aG + t) := by
  induction l generalizing aN aG with
  | nil => rfl
  | cons e rest ih =>
    obtain ⟨k, s⟩ := e
    simp only [attachCum, List.map_cons, runningSums_cons, List.map_map, List.cons.injEq]
    refine ⟨trivial, ?_⟩
    rw [ih]
    apply List.map_congr_left
    intro t _
    simp only [Function.comp_apply]
    ring

theorem attachCum_mem_usd (lp : Option ℚ) (aN aG : ℚ)
    (l : List ((Nat × Nat × Nat) × Sums)) (x : (Nat × Nat × Nat) × DailyEntry)
    (hx : x ∈ attachCum lp aN aG l) :
    x.2.netUsd = usdOf lp x.2.net ∧ x.2.feesUsd = usdOf lp x.2.fees ∧
      x.2.grossUsd = usdOf lp x.2.gross := by
  induction l generalizing aN aG with
  | nil => cases hx
  | cons e rest ih =>
    obtain ⟨k, s⟩ := e
    rw [attachCum] at hx
    rcases List.mem_cons.mp hx with hx | hx
    · subst hx
      exact ⟨rfl, rfl, rfl⟩
    · exact ih _ _ hx

theorem mem_dayKeys (rows : List Row) (k : Nat × Nat × Nat) :
    k ∈ dayKeys rows ↔ ∃ r ∈ rows, rowDay r = k := by
  unfold dayKeys
  rw [List.mem_insertionSort, List.mem_dedup]
  simp [List.mem_map]

theorem dayKeys_sorted (rows : List Row) : List.Sorted keyLe (dayKeys rows) :=
  List.sorted_insertionSort keyLe _

theorem dayKeys_nodup (rows : List Row) : (dayKeys rows).Nodup :=
  ((List.perm_insertionSort keyLe _).nodup_iff).mpr (List.nodup_dedup _)

theorem minMonth_cons_cons (a b : Row) (t : List Row) :
    minMonth (a :: b :: t) = Nat.min (monthCode a) (minMonth (b :: t)) := rfl

theorem maxMonth_cons_cons (a b : Row) (t : List Row) :
    maxMonth (a :: b :: t) = Nat.max (monthCode a) (maxMonth (b :: t)) := rfl

theorem minMonth_le (rows : List Row) (r : Row) (hr : r ∈ rows) :
    minMonth rows ≤ monthCode r := by
  induction rows with
  | nil => cases hr
  | cons a t ih =>
    cases t with
    | nil =>
      rcases List.mem_cons.mp hr with h1 | h1
      · subst h1; exact Nat.le_refl _
      · cases h1
    | cons b t2 =>
      rw [minMonth_cons_cons]
      rcases List.mem_cons.mp hr with h1 | h1
      · subst h1; exact Nat.min_le_left _ _
      · exact Nat.le_trans (Nat.min_le_right _ _) (ih h1)

theorem le_maxMonth (rows : List Row) (r : Row) (hr : r ∈ rows) :
    monthCode r ≤ maxMonth rows := by
  induction rows with
  | nil => cases hr
  | cons a t ih =>
    cases t with
    | nil =>
      rcases List.mem_cons.mp hr with h1 | h1
      · subst h1; exact Nat.le_refl _
      · cases h1
    | cons b t2 =>
      rw [maxMonth_cons_cons]
      rcases List.mem_cons.mp hr with h1 | h1
      · subst h1; exact Nat.le_max_left _ _
      · exact Nat.le_trans (ih h1) (Nat.le_max_right _ _)

theorem minMonth_mem (rows : List Row) (h : rows ≠ []) :
    ∃ r ∈ rows, monthCode r = minMonth rows := by
  induction rows with
  | nil => exact absurd rfl h
  | cons a t ih =>
    cases t with
    | nil => exact ⟨a, List.mem_singleton.mpr rfl, rfl⟩
    | cons b t2 =>
      rw [minMonth_cons_cons]
      obtain ⟨r, hrmem, hrcode⟩ := ih (List.cons_ne_nil _ _)
      by_cases hle : monthCode a ≤ minMonth (b :: t2)
      · exact ⟨a, List.mem_cons_self _ _, (Nat.min_eq_left hle).symm⟩
      · exact ⟨r, List.mem_cons_of_mem _ hrmem,
          hrcode.trans (Nat.min_eq_right (Nat.le_of_not_le hle)).symm⟩

theorem maxMonth_mem (rows : List Row) (h : rows ≠ []) :
    ∃ r ∈ rows, monthCode r = maxMonth rows := by
  induction rows with
  | nil => exact absurd rfl h
  | cons a t ih =>
    cases t with
    | nil => exact ⟨a, List.mem_singleton.mpr rfl, rfl⟩
    | cons b t2 =>
      rw [maxMonth_cons_cons]
      obtain ⟨r, hrmem, hrcode⟩ := ih (List.cons_ne_nil _ _)
      by_cases hle : maxMonth (b :: t2) ≤ monthCode a
      · exact ⟨a, List.mem_cons_self _ _, (Nat.max_eq_left hle).symm⟩
      · exact ⟨r, List.mem_cons_of_mem _ hrmem,
          hrcode.trans (Nat.max_eq_right (Nat.le_of_not_le hle)).symm⟩

theorem monthlyStats_eq (lp : Option ℚ) (rows : List Row) (h : rows ≠ []) :
    monthlyStats lp rows =
      (List.range (maxMonth rows + 1 - minMonth rows)).map (fun i =>
        let m := minMonth rows + i
        let s := sumsFor rows (fun r => decide (monthCode r = m))
        (m, ({ gross := s.gross, fees := s.fees, net := s.net,
               netUsd := usdOf lp s.net, feesUsd := usdOf lp s.fees,
               grossUsd := usdOf lp s.gross } : MonthlyEntry))) := by
  cases rows with
  | nil => exact absurd rfl h
  | cons a t => rfl

theorem monthlyStats_map_fst (lp : Option ℚ) (rows : List Row) (h : rows ≠ []) :
    (monthlyStats lp rows).map Prod.fst =
      (List.range (maxMonth rows + 1 - minMonth rows)).map
        (fun i => minMonth rows + i) := by
  rw [monthlyStats_eq lp rows h, List.map_map]
  rfl

theorem monthlyStats_mem_usd (lp : Option ℚ) (rows : List Row)
    (p : Nat × MonthlyEntry) (hp : p ∈ monthlyStats lp rows) :
    p.2.netUsd = usdOf lp p.2.net ∧ p.2.feesUsd = usdOf lp p.2.fees ∧
      p.2.grossUsd = usdOf lp p.2.gross := by
  cases rows with
  | nil => cases hp
  | cons a t =>
    obtain ⟨i, _, hpe⟩ := List.mem_map.mp hp
    subst hpe
    exact ⟨rfl, rfl, rfl⟩

theorem monthlyStats_mem_sums (lp : Option ℚ) (rows : List Row)
    (p : Nat × MonthlyEntry) (hp : p ∈ monthlyStats lp rows) :
    p.2.gross = ((rows.filter (fun r => decide (monthCode r = p.1))).map grossOf).sum ∧
      p.2.fees = ((rows.filter (fun r => decide (monthCode r = p.1))).map feesOf).sum ∧
      p.2.net = ((rows.filter (fun r => decide (monthCode r = p.1))).map netOf).sum := by
  cases rows with
  | nil => cases hp
  | cons a t =>
    obtain ⟨i, _, hpe⟩ := List.mem_map.mp hp
    subst hpe
    exact ⟨rfl, rfl, rfl⟩

/-! ### Concrete inputs used by counterexamples and witnesses -/

/-- A trade on 2025-01-01 00:00, cash flow 10, fee 1, index price 100. -/
def rowA : Row :=
  { date := ⟨2025, 1, 1, 0⟩, typ := some "trade", cashFlow := 10, feeCharged := 1,
    indexPrice := 100 }

/-- A trade on 2025-01-01 01:00, cash flow -4, fee 1, index price 0. -/
def rowB : Row :=
  { date := ⟨2025, 1, 1, 3600⟩, typ := some "trade", cashFlow := -4, feeCharged := 1,
    indexPrice := 0 }

/-- A deposit on 2025-01-02, cash flow 500, index price 110. -/
def rowDep : Row :=
  { date := ⟨2025, 1, 2, 0⟩, typ := some "Deposit", cashFlow := 500, feeCharged := 0,
    indexPrice := 110 }

/-- A trade on 2025-03-05, two months after `rowA`. -/
def rowMar : Row :=
  { date := ⟨2025, 3, 5, 0⟩, typ := some "trade", cashFlow := 2, feeCharged := 0,
    indexPrice := 105 }

/-- The scenario input of the specification's §8: two trades and a deposit,
all optional columns present. -/
def csvBase : Csv :=
  { rows := [rowA, rowB, rowDep], hasType := true, hasIndexPrice := true,
    hasCashFlow := true, hasChange := false, hasFeeCharged := true }

/-- One trade whose index price is zero: the `Index Price` column is
present but carries no usable price. -/
def csvAllZero : Csv :=
  { rows := [{ date := ⟨2025, 1, 1, 0⟩, typ := some "trade", cashFlow := 10,
               feeCharged := 1, indexPrice := 0 }],
    hasType := true, hasIndexPrice := true, hasCashFlow := true, hasChange := false,
    hasFeeCharged := true }

/-- A lone deposit: filtering removes every record while `Index Price`
is present. -/
def csvDepositOnly : Csv :=
  { rows := [rowDep], hasType := true, hasIndexPrice := true, hasCashFlow := true,
    hasChange := false, hasFeeCharged := true }

/-- The scenario input without a `Type` column. -/
def csvNoType : Csv := { csvBase with hasType := false }

/-- The scenario input without an `Index Price` column. -/
def csvNoIP : Csv := { csvBase with hasIndexPrice := false }

/-- The scenario input with the gross column labelled `Change` instead of
`Cash Flow`. -/
def csvChangeNamed : Csv := { csvBase with hasCashFlow := false, hasChange := true }

/-- Trades in January and March 2025: the records span three calendar
months, February being empty. -/
def csvMultiMonth : Csv :=
  { rows := [rowA, rowMar], hasType := true, hasIndexPrice := true,
    hasCashFlow := true, hasChange := false, hasFeeCharged := true }

/-- The report produced by a successful pipeline run (an arbitrary empty
report when the run fails; only used at inputs where the run succeeds). -/
def reportOf (c : Csv) : Report :=
  (pipeline c).toOption.getD (assemble false (some 0) [])

/-! ### Claim theorems -/

/-- Claim C2 (code bug): an input on which filtering removes every record
while the `Index Price` column is present does NOT yield empty groupings
and an all-zero summary; line 35's `.iloc[-1]` raises `IndexError` on the
empty series and the run aborts with an error instead. -/
theorem claim_c2_empty_filter_index_error :
    pipeline csvDepositOnly =
      Except.error "IndexError: single positional indexer is out-of-bounds" := by
  with_unfolding_all rfl

theorem isExcludedType_iff (t : Option String) :
    isExcludedType t = true ↔ specExcludedType t := by
  cases t with
  | none => simp [isExcludedType, specExcludedType]
  | some s => simp [isExcludedType, specExcludedType, excludedList]

/-- Claim C6: with a `Type` column present the filter removes exactly the
records whose type is, case-insensitively, one of transfer, deposit,
withdrawal, preserving the relative order of the remaining records (the
output is a sublist of the input); with the `Type` column absent the
sequence passes through unchanged. -/
theorem claim_c6_type_filter (rows : List Row) :
    List.Sublist (typeFilter true rows) rows ∧
    (∀ r : Row, r ∈ typeFilter true rows ↔ (r ∈ rows ∧ ¬ specExcludedType r.typ)) ∧
    typeFilter false rows = rows := by
  refine ⟨?_, ?_, rfl⟩
  · show List.Sublist (rows.filter (fun r => !(isExcludedType r.typ))) rows
    exact List.filter_sublist _
  · intro r
    show r ∈ rows.filter (fun r => !(isExcludedType r.typ)) ↔ _
    rw [List.mem_filter]
    simp [← isExcludedType_iff]

/-- Claim C4 (spec-modelled `win_rate`): for a report produced by the
pipeline, with at least one daily bucket the win rate is the number of
positive-net daily buckets over the total number of daily buckets as a
percentage, and it is 100 when every daily net is positive; with zero
daily buckets it is 0 and no division by zero occurs. -/
theorem claim_c4_win_rate (c : Csv) (r : Report) (h : pipeline c = Except.ok r) :
    (r.daily.length ≠ 0 →
      win_rate r.daily =
        ((r.daily.filter (fun e => decide (0 < e.2.net))).length : ℚ) /
          (r.daily.length : ℚ) * 100 ∧
      ((∀ e ∈ r.daily, 0 < e.2.net) → win_rate r.daily = 100)) ∧
    (r.daily.length = 0 → win_rate r.daily = 0) := by
  refine ⟨?_, ?_⟩
  · intro hne
    constructor
    · rw [win_rate, if_neg hne]
      ring
    · intro hpos
      rw [win_rate, if_neg hne]
      have hself : r.daily.filter (fun e => decide (0 < e.2.net)) = r.daily :=
        List.filter_eq_self.mpr (fun e he => decide_eq_true (hpos e he))
      rw [hself]
      have hq : (r.daily.length : ℚ) ≠ 0 := Nat.cast_ne_zero.mpr hne
      rw [mul_comm, mul_div_assoc, div_self hq, mul_one]
  · intro h0
    rw [win_rate, if_pos h0]

/-- Witness for claim C4 at the §8 scenario input: its single daily
bucket has positive net P&L, so the win rate is 100. -/
theorem claim_c4_win_rate_witness : win_rate (reportOf csvBase).daily = 100 :=
  ((claim_c4_win_rate csvBase (reportOf csvBase) (by with_unfolding_all rfl)).1
    (by decide)).2 (by with_unfolding_all exact of_decide_eq_true rfl)

theorem dailySums_map_fst (rows : List Row) :
    (dailySums rows).map Prod.fst = dayKeys rows := by
  rw [dailySums, List.map_map]
  have hc : (Prod.fst ∘ fun k => (k, sumsFor rows (fun r => decide (rowDay r = k)))) =
      (id : (Nat × Nat × Nat) → Nat × Nat × Nat) := rfl
  rw [hc, List.map_id]

theorem map_zero_add (l : List ℚ) : l.map (fun t => 0 + t) = l := by
  have : l.map (fun t => (0 : ℚ) + t) = l.map id := by
    apply List.map_congr_left
    intro t _
    simp
  rw [this, List.map_id]

/-- Counterexample to claim C3: on the §8 scenario input the daily table
has the cumulative columns but the monthly table does not. -/
theorem claim_c3_counterexample :
    pipeline csvBase = Except.ok (reportOf csvBase) ∧
    "Cumulative Net" ∈ (reportOf csvBase).dailyColumns ∧
    "Cumulative Gross" ∈ (reportOf csvBase).dailyColumns ∧
    "Cumulative Net" ∉ (reportOf csvBase).monthlyColumns ∧
    "Cumulative Gross" ∉ (reportOf csvBase).monthlyColumns := by
  refine ⟨by with_unfolding_all rfl, by decide, by decide, by decide, by decide⟩

/-- Claim C3 (amended): only the daily ledger carries `cumulative_net`
and `cumulative_gross`, computed as running sums of the already-summed
day-bucket totals over buckets in ascending chronological bucket order;
the monthly table has no cumulative columns at all. -/
theorem claim_c3_amended (c : Csv) (r : Report) (h : pipeline c = Except.ok r) :
    r.daily.map (fun e => e.2.cumNet) = runningSums (r.daily.map (fun e => e.2.net)) ∧
    r.daily.map (fun e => e.2.cumGross) = runningSums (r.daily.map (fun e => e.2.gross)) ∧
    List.Sorted keyLe (r.daily.map Prod.fst) ∧
    (r.daily.map Prod.fst).Nodup ∧
    "Cumulative Net" ∉ r.monthlyColumns ∧
    "Cumulative Gross" ∉ r.monthlyColumns := by
  obtain ⟨-, -, hcase⟩ := pipeline_ok_cases c r h
  have key : ∀ (hasIP : Bool) (lp : Option ℚ) (rows : List Row),
      r = assemble hasIP lp rows →
      (r.daily.map (fun e => e.2.cumNet) = runningSums (r.daily.map (fun e => e.2.net)) ∧
       r.daily.map (fun e => e.2.cumGross) = runningSums (r.daily.map (fun e => e.2.gross)) ∧
       List.Sorted keyLe (r.daily.map Prod.fst) ∧
       (r.daily.map Prod.fst).Nodup ∧
       "Cumulative Net" ∉ r.monthlyColumns ∧
       "Cumulative Gross" ∉ r.monthlyColumns) := by
    intro hasIP lp rows hr
    subst hr
    refine ⟨?_, ?_, ?_, ?_,
      by show "Cumulative Net" ∉ monthlyColumnNames; decide,
      by show "Cumulative Gross" ∉ monthlyColumnNames; decide⟩
    · show (attachCum lp 0 0 (dailySums rows)).map (fun e => e.2.cumNet) =
        runningSums ((attachCum lp 0 0 (dailySums rows)).map (fun e => e.2.net))
      rw [attachCum_map_cumNet, attachCum_map_net, map_zero_add]
    · show (attachCum lp 0 0 (dailySums rows)).map (fun e => e.2.cumGross) =
        runningSums ((attachCum lp 0 0 (dailySums rows)).map (fun e => e.2.gross))
      rw [attachCum_map_cumGross, attachCum_map_gross, map_zero_add]
    · show List.Sorted keyLe ((attachCum lp 0 0 (dailySums rows)).map Prod.fst)
      rw [attachCum_map_fst, dailySums_map_fst]
      exact dayKeys_sorted rows
    · show ((attachCum lp 0 0 (dailySums rows)).map Prod.fst).Nodup
      rw [attachCum_map_fst, dailySums_map_fst]
      exact dayKeys_nodup rows
  rcases hcase with ⟨-, hr⟩ | ⟨-, -, hr⟩
  · exact key false (some 0) (processedRows c) hr
  · exact key true _ (processedRows c) hr

/-- Witness for claim C3 at the §8 scenario input. -/
theorem claim_c3_amended_witness :
    (reportOf csvBase).daily.map (fun e => e.2.cumNet) =
      runningSums ((reportOf csvBase).daily.map (fun e => e.2.net)) :=
  (claim_c3_amended csvBase (reportOf csvBase) (by with_unfolding_all rfl)).1

theorem attachCum_eq_nil_iff (lp : Option ℚ) (aN aG : ℚ)
    (l : List ((Nat × Nat × Nat) × Sums)) :
    attachCum lp aN aG l = [] ↔ l = [] := by
  cases l with
  | nil => simp [attachCum]
  | cons e rest =>
    obtain ⟨k, s⟩ := e
    simp [attachCum]

/-- Claim C7: for a successful run with a non-empty daily ledger, the
cumulative net at the last daily bucket equals the summary's total net,
and the cumulative gross at the last daily bucket equals the total gross. -/
theorem claim_c7_cumulative_totals (c : Csv) (r : Report) (h : pipeline c = Except.ok r)
    (hne : r.daily ≠ []) :
    (r.daily.map (fun e => e.2.cumNet)).getLast? = some r.totalNet ∧
    (r.daily.map (fun e => e.2.cumGross)).getLast? = some r.totalGross := by
  obtain ⟨-, -, hcase⟩ := pipeline_ok_cases c r h
  have key : ∀ (hasIP : Bool) (lp : Option ℚ) (rows : List Row),
      r = assemble hasIP lp rows →
      ((r.daily.map (fun e => e.2.cumNet)).getLast? = some r.totalNet ∧
       (r.daily.map (fun e => e.2.cumGross)).getLast? = some r.totalGross) := by
    intro hasIP lp rows hr
    subst hr
    have hds : dailySums rows ≠ [] := by
      intro h0
      apply hne
      show attachCum lp 0 0 (dailySums rows) = []
      rw [(attachCum_eq_nil_iff lp 0 0 (dailySums rows)).mpr h0]
    constructor
    · show ((attachCum lp 0 0 (dailySums rows)).map (fun e => e.2.cumNet)).getLast? =
        some ((dailySums rows).map (fun e => e.2.net)).sum
      rw [attachCum_map_cumNet, map_zero_add]
      apply runningSums_getLast
      intro h0
      exact hds (List.map_eq_nil_iff.mp h0)
    · show ((attachCum lp 0 0 (dailySums rows)).map (fun e => e.2.cumGross)).getLast? =
        some ((dailySums rows).map (fun e => e.2.gross)).sum
      rw [attachCum_map_cumGross, map_zero_add]
      apply runningSums_getLast
      intro h0
      exact hds (List.map_eq_nil_iff.mp h0)
  rcases hcase with ⟨-, hr⟩ | ⟨-, -, hr⟩
  · exact key false (some 0) (processedRows c) hr
  · exact key true _ (processedRows c) hr

/-- Witness for claim C7 at the §8 scenario input. -/
theorem claim_c7_cumulative_totals_witness :
    ((reportOf csvBase).daily.map (fun e => e.2.cumNet)).getLast? =
      some (reportOf csvBase).totalNet :=
  (claim_c7_cumulative_totals csvBase (reportOf csvBase)
    (by with_unfolding_all rfl) (by decide)).1

theorem assemble_usd_const (hasIP : Bool) (lp : Option ℚ) (rows : List Row)
    (v : Option ℚ) (hv : ∀ x : ℚ, usdOf lp x = v) :
    (assemble hasIP lp rows).totalNetUsd = v ∧
    (assemble hasIP lp rows).totalGrossUsd = v ∧
    (assemble hasIP lp rows).totalFeesUsd = v ∧
    (∀ e ∈ (assemble hasIP lp rows).daily,
      e.2.netUsd = v ∧ e.2.feesUsd = v ∧ e.2.grossUsd = v) ∧
    (∀ p ∈ (assemble hasIP lp rows).monthly,
      p.2.netUsd = v ∧ p.2.feesUsd = v ∧ p.2.grossUsd = v) := by
  refine ⟨hv _, hv _, hv _, ?_, ?_⟩
  · intro e he
    obtain ⟨h1, h2, h3⟩ := attachCum_mem_usd lp 0 0 (dailySums rows) e he
    exact ⟨h1.trans (hv _), h2.trans (hv _), h3.trans (hv _)⟩
  · intro p hp
    obtain ⟨h1, h2, h3⟩ := monthlyStats_mem_usd lp rows p hp
    exact ⟨h1.trans (hv _), h2.trans (hv _), h3.trans (hv _)⟩

theorem specLastNonZero_of_all_zero (xs : List ℚ) (h : ∀ x ∈ xs, x = 0) :
    specLastNonZero xs = none := by
  rw [specLastNonZero]
  have hnil : xs.filter (fun x => x != 0) = [] := by
    rw [List.filter_eq_nil_iff]
    intro a ha
    simp [h a ha]
  rw [hnil]
  rfl

/-- Counterexample to claim C1: with the `Index Price` column present but
all its values zero, the price reference is the missing value (pandas
NaN), not 0, and the fiat totals are missing as well, not 0. -/
theorem claim_c1_counterexample :
    pipeline csvAllZero = Except.ok (reportOf csvAllZero) ∧
    csvAllZero.hasIndexPrice = true ∧
    (∀ row ∈ processedRows csvAllZero, row.indexPrice = 0) ∧
    (reportOf csvAllZero).lastPrice = none ∧
    (reportOf csvAllZero).lastPrice ≠ some 0 ∧
    (reportOf csvAllZero).totalNetUsd = none ∧
    (reportOf csvAllZero).totalNetUsd ≠ some 0 := by
  with_unfolding_all
    exact ⟨rfl, rfl, by decide, rfl, by decide, rfl, by decide⟩

/-- Claim C1 (amended): over the sorted, filtered records, when the
`Index Price` column is present the price reference is the last non-zero
index price in chronological order; when the column is absent the price
reference is exactly 0 and every fiat-denominated output field is exactly
0; but when the column is present and every index price is zero, the
price reference and every fiat-denominated output field are the missing
value (pandas NaN), not 0. -/
theorem claim_c1_price_reference (c : Csv) (r : Report)
    (h : pipeline c = Except.ok r) :
    List.Sorted rowLe (processedRows c) ∧
    (c.hasIndexPrice = true →
      r.lastPrice = specLastNonZero ((processedRows c).map (fun row => row.indexPrice))) ∧
    (c.hasIndexPrice = false →
      r.lastPrice = some 0 ∧
      r.totalNetUsd = some 0 ∧ r.totalGrossUsd = some 0 ∧ r.totalFeesUsd = some 0 ∧
      (∀ e ∈ r.daily, e.2.netUsd = some 0 ∧ e.2.feesUsd = some 0 ∧ e.2.grossUsd = some 0) ∧
      (∀ p ∈ r.monthly, p.2.netUsd = some 0 ∧ p.2.feesUsd = some 0 ∧ p.2.grossUsd = some 0)) ∧
    (c.hasIndexPrice = true →
      (∀ row ∈ processedRows c, row.indexPrice = 0) →
      r.lastPrice = none ∧
      r.totalNetUsd = none ∧ r.totalGrossUsd = none ∧ r.totalFeesUsd = none ∧
      (∀ e ∈ r.daily, e.2.netUsd = none ∧ e.2.feesUsd = none ∧ e.2.grossUsd = none) ∧
      (∀ p ∈ r.monthly, p.2.netUsd = none ∧ p.2.feesUsd = none ∧ p.2.grossUsd = none)) := by
  obtain ⟨-, -, hcase⟩ := pipeline_ok_cases c r h
  have hsorted : List.Sorted rowLe (processedRows c) := by
    rw [processedRows, typeFilter]
    cases c.hasType with
    | false => simpa using List.sorted_insertionSort rowLe c.rows
    | true =>
      simp only [if_pos]
      exact List.Pairwise.filter _ (List.sorted_insertionSort rowLe c.rows)
  rcases hcase with ⟨hip, hr⟩ | ⟨hip, hrows, hr⟩
  · subst hr
    refine ⟨hsorted, ?_, ?_, ?_⟩
    · intro htrue
      rw [hip] at htrue
      cases htrue
    · intro _
      obtain ⟨u1, u2, u3, u4, u5⟩ :=
        assemble_usd_const false (some 0) (processedRows c) (some 0)
          (fun x => by simp [usdOf])
      exact ⟨rfl, u1, u2, u3, u4, u5⟩
    · intro htrue
      rw [hip] at htrue
      cases htrue
  · subst hr
    refine ⟨hsorted, ?_, ?_, ?_⟩
    · intro _
      rfl
    · intro hfalse
      rw [hip] at hfalse
      cases hfalse
    · intro _ hzero
      have hlp : specLastNonZero ((processedRows c).map (fun row => row.indexPrice)) =
          none := by
        apply specLastNonZero_of_all_zero
        intro x hx
        obtain ⟨row, hrow, hxe⟩ := List.mem_map.mp hx
        rw [← hxe]
        exact hzero row hrow
      rw [hlp]
      obtain ⟨u1, u2, u3, u4, u5⟩ :=
        assemble_usd_const true none (processedRows c) none (fun x => rfl)
      exact ⟨rfl, u1, u2, u3, u4, u5⟩

/-- Witness for claim C1 at the §8 scenario input: the price reference is
the last non-zero index price of the filtered, sorted records. -/
theorem claim_c1_price_reference_witness :
    (reportOf csvBase).lastPrice =
      specLastNonZero ((processedRows csvBase).map (fun row => row.indexPrice)) :=
  (claim_c1_price_reference csvBase (reportOf csvBase)
    (by with_unfolding_all rfl)).2.1 rfl

/-- Counterexample to claim C9: with the `Type` column absent (first
input) and with the `Index Price` column present but all-zero (second
input) the run completes with NO warning at all — the conditions are not
surfaced to the caller. -/
theorem claim_c9_counterexample :
    csvNoType.hasType = false ∧
    pipeline csvNoType = Except.ok (reportOf csvNoType) ∧
    (reportOf csvNoType).warnings = [] ∧
    (∀ row ∈ processedRows csvAllZero, row.indexPrice = 0) ∧
    pipeline csvAllZero = Except.ok (reportOf csvAllZero) ∧
    (reportOf csvAllZero).warnings = [] := by
  with_unfolding_all
    exact ⟨rfl, rfl, rfl, by decide, rfl, rfl⟩

/-- Claim C9 (amended): the only warning the pipeline ever emits is the
missing-`Index Price` warning; the absence of the `Type` column and an
all-zero `Index Price` column are silent (the latter silently yields NaN
fiat figures rather than an explicit degraded-mode warning). -/
theorem claim_c9_warnings (c : Csv) (r : Report) (h : pipeline c = Except.ok r) :
    r.warnings = (if c.hasIndexPrice then [] else [ipWarning]) := by
  obtain ⟨-, -, hcase⟩ := pipeline_ok_cases c r h
  rcases hcase with ⟨hip, hr⟩ | ⟨hip, -, hr⟩ <;> subst hr <;> rw [hip] <;> rfl

/-- Witness for claim C9 at the scenario input without `Index Price`. -/
theorem claim_c9_warnings_witness :
    (reportOf csvNoIP).warnings = (if csvNoIP.hasIndexPrice then [] else [ipWarning]) :=
  claim_c9_warnings csvNoIP (reportOf csvNoIP) (by with_unfolding_all rfl)

/-- Counterexample to claim C5: two inputs identical except that the
gross-amount column is labelled `Cash Flow` in one and `Change` in the
other do NOT produce the same report: the `Change` variant aborts with a
`KeyError` because line 41 reads only `df['Cash Flow']`. -/
theorem claim_c5_counterexample :
    csvChangeNamed = { csvBase with hasCashFlow := false, hasChange := true } ∧
    pipeline csvBase = Except.ok (reportOf csvBase) ∧
    pipeline csvChangeNamed = Except.error "KeyError: Cash Flow" := by
  with_unfolding_all exact ⟨rfl, rfl, rfl⟩

/-- Claim C5 (amended): the calculator sources `cash_flow` only from a
column named `Cash Flow`: a run can succeed only when that column is
present, and the presence or absence of a `Change` column never affects
the pipeline's result. -/
theorem claim_c5_cash_flow_only :
    (∀ (c : Csv) (r : Report), pipeline c = Except.ok r → c.hasCashFlow = true) ∧
    (∀ (c : Csv) (b : Bool), pipeline { c with hasChange := b } = pipeline c) := by
  constructor
  · intro c r h
    exact (pipeline_ok_cases c r h).1
  · intro c b
    cases c
    rfl

/-- Witness for claim C5: the successful scenario run indeed has the
`Cash Flow` column. -/
theorem claim_c5_cash_flow_only_witness : csvBase.hasCashFlow = true :=
  claim_c5_cash_flow_only.1 csvBase (reportOf csvBase) (by with_unfolding_all rfl)

/-- Claim C10: for a successful run whose filtered records span more than
one calendar month, the monthly table has exactly one bucket for every
month period between the earliest and the latest record month inclusive
(both of which are attained by records), months with no records carry
all-zero sums, and the daily ledger has a bucket exactly for the dates
with at least one record. -/
theorem claim_c10_bucket_coverage (c : Csv) (r : Report)
    (h : pipeline c = Except.ok r)
    (hspan : minMonth (processedRows c) < maxMonth (processedRows c)) :
    (∃ row ∈ processedRows c, monthCode row = minMonth (processedRows c)) ∧
    (∃ row ∈ processedRows c, monthCode row = maxMonth (processedRows c)) ∧
    (∀ row ∈ processedRows c,
      minMonth (processedRows c) ≤ monthCode row ∧
      monthCode row ≤ maxMonth (processedRows c)) ∧
    (∀ m : Nat, m ∈ r.monthly.map Prod.fst ↔
      (minMonth (processedRows c) ≤ m ∧ m ≤ maxMonth (processedRows c))) ∧
    (∀ p ∈ r.monthly,
      (processedRows c).filter (fun row => decide (monthCode row = p.1)) = [] →
        p.2.gross = 0 ∧ p.2.fees = 0 ∧ p.2.net = 0) ∧
    (∀ k : Nat × Nat × Nat,
      k ∈ r.daily.map Prod.fst ↔ ∃ row ∈ processedRows c, rowDay row = k) := by
  have hne : processedRows c ≠ [] := by
    intro h0
    rw [h0] at hspan
    simp [minMonth, maxMonth] at hspan
  obtain ⟨-, -, hcase⟩ := pipeline_ok_cases c r h
  have key : ∀ (hasIP : Bool) (lp : Option ℚ),
      r = assemble hasIP lp (processedRows c) →
      ((∀ m : Nat, m ∈ r.monthly.map Prod.fst ↔
         (minMonth (processedRows c) ≤ m ∧ m ≤ maxMonth (processedRows c))) ∧
       (∀ p ∈ r.monthly,
         (processedRows c).filter (fun row => decide (monthCode row = p.1)) = [] →
           p.2.gross = 0 ∧ p.2.fees = 0 ∧ p.2.net = 0) ∧
       (∀ k : Nat × Nat × Nat,
         k ∈ r.daily.map Prod.fst ↔ ∃ row ∈ processedRows c, rowDay row = k)) := by
    intro hasIP lp hr
    subst hr
    refine ⟨?_, ?_, ?_⟩
    · intro m
      show m ∈ (monthlyStats lp (processedRows c)).map Prod.fst ↔ _
      rw [monthlyStats_map_fst lp (processedRows c) hne]
      simp only [List.mem_map, List.mem_range]
      constructor
      · rintro ⟨i, hi, hm⟩
        omega
      · rintro ⟨hlo, hhi⟩
        exact ⟨m - minMonth (processedRows c), by omega, by omega⟩
    · intro p hp hfil
      have hsums := monthlyStats_mem_sums lp (processedRows c) p hp
      rw [hfil] at hsums
      simpa using hsums
    · intro k
      show k ∈ (attachCum lp 0 0 (dailySums (processedRows c))).map Prod.fst ↔ _
      rw [attachCum_map_fst, dailySums_map_fst]
      exact mem_dayKeys (processedRows c) k
  have hmain :
      (∀ m : Nat, m ∈ r.monthly.map Prod.fst ↔
        (minMonth (processedRows c) ≤ m ∧ m ≤ maxMonth (processedRows c))) ∧
      (∀ p ∈ r.monthly,
        (processedRows c).filter (fun row => decide (monthCode row = p.1)) = [] →
          p.2.gross = 0 ∧ p.2.fees = 0 ∧ p.2.net = 0) ∧
      (∀ k : Nat × Nat × Nat,
        k ∈ r.daily.map Prod.fst ↔ ∃ row ∈ processedRows c, rowDay row = k) := by
    rcases hcase with ⟨-, hr⟩ | ⟨-, -, hr⟩
    · exact key false (some 0) hr
    · exact key true _ hr
  exact ⟨minMonth_mem _ hne, maxMonth_mem _ hne,
    fun row hrow => ⟨minMonth_le _ row hrow, le_maxMonth _ row hrow⟩,
    hmain.1, hmain.2.1, hmain.2.2⟩

/-- Witness for claim C10 at the January-plus-March input: the empty
month of February 2025 (month period 24301) appears as a bucket of the
monthly table. -/
theorem claim_c10_bucket_coverage_witness :
    24301 ∈ (reportOf csvMultiMonth).monthly.map Prod.fst :=
  ((claim_c10_bucket_coverage csvMultiMonth (reportOf csvMultiMonth)
      (by with_unfolding_all rfl) (by decide)).2.2.2.1 24301).mpr (by decide)
